import Mathlib

/-!
Verification of the `firmware-controller` proc-macro crate.

The crate expands a `#[controller]` module into: an owning struct whose
published fields each get a statically allocated `embassy_sync::watch::Watch`
channel, a `Sender` field, a mutate-and-publish `set_<field>` accessor, and a
generated subscriber type implementing `futures::Stream` with a first-poll
special case (`src/controller/item_struct.rs`), plus module-level validation
(`src/controller/mod.rs`).

We shallowly embed, on one hand, the runtime semantics of the generated code
(the `Watch` latest-value channel, the generated `poll_next`, the generated
constructor and setter), and on the other hand the generation-time logic
(attribute parsing, setter routing info, module assembly validation, and the
identifier naming scheme).
-/

namespace FirmwareController

/-! The latest-value channel (`embassy_sync::watch::Watch`)

The generated code instantiates `embassy_sync::watch::Watch<M, T, N>` with
`N = BROADCAST_MAX_SUBSCRIBERS`.  The watch holds an optional current value,
a monotone message id (`current_id`, bumped on every `send`), and a count of
attached receivers (at most `N`; `Watch::receiver` returns `None` when full,
and dropping a receiver frees its slot).  A `Receiver` remembers the id of the
last value it has seen (`at_id`, starting at 0 on creation):
`try_get` returns the current value (if any) and marks it seen;
polling `changed()` completes exactly when `current_id` exceeds `at_id`,
returning the current value and marking it seen, and is pending otherwise.
`send` never blocks and never suspends: it overwrites the value, bumps the id
and wakes waiters, whatever the number or state of the receivers. -/

/-- Constant `BROADCAST_MAX_SUBSCRIBERS` from `src/controller/mod.rs`. -/
def BROADCAST_MAX_SUBSCRIBERS : Nat := 16

/-- State of one `embassy_sync::watch::Watch` channel. -/
structure Watch (T : Type) where
  data : Option T
  current_id : Nat
  receiver_count : Nat
  deriving Repr, DecidableEq

/-- Constructor `Watch::new()`: no value yet, id 0, no receivers. -/
def Watch.new {T : Type} : Watch T := ⟨none, 0, 0⟩

/-- Operation `Sender::send(v)`: store the value, bump the message id.  Total — it can
never block or suspend, regardless of `receiver_count`. -/
def Watch.send {T : Type} (w : Watch T) (v : T) : Watch T :=
  { w with data := some v, current_id := w.current_id + 1 }

/-- A receiver handle: the id of the last message it has seen. -/
structure Receiver where
  at_id : Nat
  deriving Repr, DecidableEq

/-- Operation `Watch::receiver()`: succeeds while a receiver slot is free, returning a
fresh receiver (which has seen nothing, `at_id = 0`) and the updated watch. -/
def Watch.receiver {T : Type} (w : Watch T) : Option (Receiver × Watch T) :=
  if w.receiver_count < BROADCAST_MAX_SUBSCRIBERS then
    some (⟨0⟩, { w with receiver_count := w.receiver_count + 1 })
  else
    none

/-- Dropping a receiver releases its slot. -/
def Watch.dropReceiver {T : Type} (w : Watch T) : Watch T :=
  { w with receiver_count := w.receiver_count - 1 }

/-- Operation `Receiver::try_get()`: return the current value, if any, and mark the
current message id as seen. -/
def Receiver.try_get {T : Type} (_r : Receiver) (w : Watch T) :
    Option T × Receiver :=
  (w.data, ⟨w.current_id⟩)

/-- One poll of the `Receiver::changed()` future: ready with the current value
exactly when a message the receiver has not yet seen is present, pending
otherwise. -/
def Receiver.poll_changed {T : Type} (r : Receiver) (w : Watch T) :
    Option (T × Receiver) :=
  if r.at_id < w.current_id then
    match w.data with
    | some v => some (v, ⟨w.current_id⟩)
    | none => none
  else
    none

/-! The generated subscriber type

For every published field the macro emits (item_struct.rs, generated
subscriber struct): a struct holding a `Receiver` and a `first_poll: bool`
flag initialized to `true` by `Subscriber::new` (which forwards
`Watch::receiver`, hence is fallible), and a `Stream` impl whose `poll_next`
on the first poll returns the current value immediately via `try_get` when
one exists, and otherwise (and on all later polls) polls `changed()`. -/

/-- Outcome of one `poll_next` call.  The generated stream never terminates,
so `Poll::Ready(Some(v))` is `ready v` and `Poll::Pending` is `pending`. -/
inductive PollResult (T : Type) where
  | ready (v : T)
  | pending
  deriving Repr, DecidableEq

/-- The generated subscriber struct: one receiver handle plus the
`first_poll` bookkeeping flag. -/
structure Subscriber where
  receiver : Receiver
  first_poll : Bool
  deriving Repr, DecidableEq

/-- Generated `Subscriber::new()`: attach a receiver to the static channel if
a slot is free; `first_poll` starts `true`. -/
def Subscriber.new {T : Type} (w : Watch T) : Option (Subscriber × Watch T) :=
  (Watch.receiver w).map (fun p => (⟨p.1, true⟩, p.2))

/-- Generated `poll_next` (item_struct.rs, `Stream` impl): on the first poll,
clear the flag and return the current value via `try_get` if one exists;
otherwise, and on every later poll, poll the `changed()` future. -/
def Subscriber.poll_next {T : Type} (s : Subscriber) (w : Watch T) :
    PollResult T × Subscriber :=
  if s.first_poll then
    let tg := s.receiver.try_get w
    match tg.1 with
    | some v => (.ready v, ⟨tg.2, false⟩)
    | none =>
      match tg.2.poll_changed w with
      | some (v, r) => (.ready v, ⟨r, false⟩)
      | none => (.pending, ⟨tg.2, false⟩)
  else
    match s.receiver.poll_changed w with
    | some (v, r) => (.ready v, ⟨r, false⟩)
    | none => (.pending, s)

/-- Apply a sequence of `send`s in order. -/
def Watch.sendAll {T : Type} (w : Watch T) (vs : List T) : Watch T :=
  vs.foldl Watch.send w

theorem sendAll_current_id {T : Type} (vs : List T) :
    ∀ w : Watch T, (Watch.sendAll w vs).current_id = w.current_id + vs.length := by
  induction vs with
  | nil => intro w; simp [Watch.sendAll]
  | cons v vs ih =>
    intro w
    simp only [Watch.sendAll, List.foldl_cons, List.length_cons] at *
    rw [ih]
    simp [Watch.send]
    omega

theorem sendAll_receiver_count {T : Type} (vs : List T) :
    ∀ w : Watch T, (Watch.sendAll w vs).receiver_count = w.receiver_count := by
  induction vs with
  | nil => intro w; simp [Watch.sendAll]
  | cons v vs ih =>
    intro w
    simp only [Watch.sendAll, List.foldl_cons] at *
    rw [ih]
    simp [Watch.send]

theorem sendAll_data {T : Type} (vs : List T) (hne : vs ≠ []) :
    ∀ w : Watch T, (Watch.sendAll w vs).data = some (vs.getLast hne) := by
  induction vs with
  | nil => exact absurd rfl hne
  | cons v vs ih =>
    intro w
    by_cases h : vs = []
    · subst h
      simp [Watch.sendAll, Watch.send]
    · simp only [Watch.sendAll, List.foldl_cons] at *
      rw [ih h]
      rw [List.getLast_cons h]

/-- C1: a subscriber created after a nonempty sequence of writes yields, on
its first poll, exactly the most recent write (no replay of earlier writes);
its next poll is pending on the unchanged channel, and becomes ready exactly
when a new value is published, yielding that value. -/
theorem first_poll_latest_then_change_only
    {T : Type} (vs : List T) (hne : vs ≠ []) :
    ∃ sub : Subscriber, ∃ w1 : Watch T,
      Subscriber.new (Watch.sendAll Watch.new vs) = some (sub, w1) ∧
      ∃ sub1 : Subscriber,
        sub.poll_next w1 = (.ready (vs.getLast hne), sub1) ∧
        sub1.poll_next w1 = (.pending, sub1) ∧
        ∀ u : T, ∃ sub2 : Subscriber,
          sub1.poll_next (w1.send u) = (.ready u, sub2) ∧
          sub2.poll_next (w1.send u) = (.pending, sub2) := by
  set w0 : Watch T := Watch.sendAll Watch.new vs with hw0
  have hrc : w0.receiver_count = 0 := by
    rw [hw0, sendAll_receiver_count]; rfl
  have hid : w0.current_id = vs.length := by
    rw [hw0, sendAll_current_id]; simp [Watch.new]
  have hdata : w0.data = some (vs.getLast hne) := by
    rw [hw0, sendAll_data vs hne]
  refine ⟨⟨⟨0⟩, true⟩, { w0 with receiver_count := w0.receiver_count + 1 }, ?_, ?_⟩
  · simp [Subscriber.new, Watch.receiver, hrc, BROADCAST_MAX_SUBSCRIBERS]
  · refine ⟨⟨⟨w0.current_id⟩, false⟩, ?_, ?_, ?_⟩
    · simp [Subscriber.poll_next, Receiver.try_get, hdata]
    · simp [Subscriber.poll_next, Receiver.poll_changed]
    · intro u
      refine ⟨⟨⟨w0.current_id + 1⟩, false⟩, ?_, ?_⟩
      · simp [Subscriber.poll_next, Receiver.poll_changed, Watch.send]
      · simp [Subscriber.poll_next, Receiver.poll_changed, Watch.send]

/-- Witness for C1 at a concrete input. -/
theorem first_poll_latest_then_change_only_witness :
    ([1, 2, 3] : List Nat) ≠ [] ∧
    ∃ sub : Subscriber, ∃ w1 : Watch Nat,
      Subscriber.new (Watch.sendAll Watch.new [1, 2, 3]) = some (sub, w1) ∧
      ∃ sub1 : Subscriber,
        sub.poll_next w1 = (.ready (([1, 2, 3] : List Nat).getLast (by decide)), sub1) ∧
        sub1.poll_next w1 = (.pending, sub1) ∧
        ∀ u : Nat, ∃ sub2 : Subscriber,
          sub1.poll_next (w1.send u) = (.ready u, sub2) ∧
          sub2.poll_next (w1.send u) = (.pending, sub2) :=
  ⟨by decide, first_poll_latest_then_change_only [1, 2, 3] (by decide)⟩

/-! The generated owning type, constructor and mutate-and-publish setter

We model a controller with one published field of type `T` (the expansion
treats each published field independently, with its own channel, sender and
subscriber type, so one representative field loses no generality).  The
`watch` component stands for the static channel, through which the owned
`Sender` operates. -/

/-- The generated owning struct: the published field plus (via `watch`) its
sender/channel state. -/
structure Controller (T : Type) where
  state : T
  watch : Watch T
  deriving Repr, DecidableEq

/-- Generated `fn new` (item_struct.rs): build `Self` with the given initial
field values and freshly acquired senders, then send the initial value of
every published field so that subscribers can get it immediately. -/
def Controller.new {T : Type} (v : T) : Controller T :=
  let __self : Controller T := { state := v, watch := Watch.new }
  { __self with watch := __self.watch.send __self.state }

/-- Generated `set_<field>` (item_struct.rs, `setter`): assign the new value
to the field, then `send` a clone of the field on the watch channel. -/
def Controller.set_state {T : Type} (c : Controller T) (v : T) : Controller T :=
  let c1 : Controller T := { c with state := v }
  { c1 with watch := c1.watch.send c1.state }

/-- C2: constructing the owning type with an initial value and never mutating
it, then subscribing, yields the initial value as the subscriber's first
observation — no call to the mutate-and-publish accessor is needed. -/
theorem construction_initial_value_first_observation {T : Type} (v : T) :
    ∃ sub : Subscriber, ∃ w1 : Watch T, ∃ sub1 : Subscriber,
      Subscriber.new (Controller.new v).watch = some (sub, w1) ∧
      sub.poll_next w1 = (.ready v, sub1) := by
  refine ⟨⟨⟨0⟩, true⟩, ⟨some v, 1, 1⟩, ⟨⟨1⟩, false⟩, ?_, ?_⟩
  · simp [Subscriber.new, Watch.receiver, Controller.new, Watch.new, Watch.send,
      BROADCAST_MAX_SUBSCRIBERS]
  · simp [Subscriber.poll_next, Receiver.try_get]

/-- C3: a subscriber created before any write pends on every poll until the
first write; once the first write is published it yields exactly that value
(and then pends again until the next write).  This also holds when the first
write lands before the subscriber's very first poll. -/
theorem subscriber_before_first_write {T : Type} :
    ∃ sub : Subscriber, ∃ w1 : Watch T,
      Subscriber.new (Watch.new : Watch T) = some (sub, w1) ∧
      ∃ sub1 : Subscriber,
        sub.poll_next w1 = (.pending, sub1) ∧
        sub1.poll_next w1 = (.pending, sub1) ∧
        (∀ v : T, ∃ sub2 : Subscriber,
          sub1.poll_next (w1.send v) = (.ready v, sub2) ∧
          sub2.poll_next (w1.send v) = (.pending, sub2)) ∧
        (∀ v : T, ∃ sub2 : Subscriber,
          sub.poll_next (w1.send v) = (.ready v, sub2)) := by
  refine ⟨⟨⟨0⟩, true⟩, ⟨none, 0, 1⟩, ?_, ⟨⟨0⟩, false⟩, ?_, ?_, ?_, ?_⟩
  · simp [Subscriber.new, Watch.receiver, Watch.new, BROADCAST_MAX_SUBSCRIBERS]
  · simp [Subscriber.poll_next, Receiver.try_get, Receiver.poll_changed]
  · simp [Subscriber.poll_next, Receiver.poll_changed]
  · intro v
    refine ⟨⟨⟨1⟩, false⟩, ?_, ?_⟩
    · simp [Subscriber.poll_next, Receiver.poll_changed, Watch.send]
    · simp [Subscriber.poll_next, Receiver.poll_changed, Watch.send]
  · intro v
    refine ⟨⟨⟨1⟩, false⟩, ?_⟩
    simp [Subscriber.poll_next, Receiver.try_get, Watch.send]

/-- C4: each call of the mutate-and-publish accessor stores the value and
emits exactly one change event: an up-to-date attached subscriber observes
exactly one ready poll per call, and a second call with the same value emits
a second, distinct change event. -/
theorem setter_emits_one_event_per_call
    {T : Type} (c : Controller T) (v : T) (sub : Subscriber)
    (hfp : sub.first_poll = false)
    (hup : sub.receiver.at_id = c.watch.current_id) :
    (c.set_state v).state = v ∧
    (c.set_state v).watch.current_id = c.watch.current_id + 1 ∧
    ∃ sub1 : Subscriber,
      sub.poll_next (c.set_state v).watch = (.ready v, sub1) ∧
      sub1.poll_next (c.set_state v).watch = (.pending, sub1) ∧
      ∃ sub2 : Subscriber,
        sub1.poll_next ((c.set_state v).set_state v).watch = (.ready v, sub2) ∧
        sub2.poll_next ((c.set_state v).set_state v).watch = (.pending, sub2) := by
  obtain ⟨r, fp⟩ := sub
  obtain ⟨at_id⟩ := r
  simp only at hfp hup
  subst hfp hup
  refine ⟨rfl, rfl, ⟨⟨c.watch.current_id + 1⟩, false⟩, ?_, ?_,
    ⟨⟨c.watch.current_id + 2⟩, false⟩, ?_, ?_⟩ <;>
    simp [Subscriber.poll_next, Receiver.poll_changed, Controller.set_state,
      Watch.send]

/-- Witness for C4 at a concrete input. -/
theorem setter_emits_one_event_per_call_witness :
    (⟨⟨1⟩, false⟩ : Subscriber).first_poll = false ∧
    (⟨⟨1⟩, false⟩ : Subscriber).receiver.at_id = (Controller.new 7).watch.current_id ∧
    ((Controller.new (7 : Nat)).set_state 9).state = 9 ∧
    ((Controller.new (7 : Nat)).set_state 9).watch.current_id =
      (Controller.new (7 : Nat)).watch.current_id + 1 ∧
    ∃ sub1 : Subscriber,
      (⟨⟨1⟩, false⟩ : Subscriber).poll_next ((Controller.new (7 : Nat)).set_state 9).watch
        = (.ready 9, sub1) ∧
      sub1.poll_next ((Controller.new (7 : Nat)).set_state 9).watch = (.pending, sub1) ∧
      ∃ sub2 : Subscriber,
        sub1.poll_next (((Controller.new (7 : Nat)).set_state 9).set_state 9).watch
          = (.ready 9, sub2) ∧
        sub2.poll_next (((Controller.new (7 : Nat)).set_state 9).set_state 9).watch
          = (.pending, sub2) := by
  refine ⟨by decide, by decide, ?_⟩
  exact setter_emits_one_event_per_call (Controller.new 7) 9 ⟨⟨1⟩, false⟩
    (by decide) (by decide)

/-! Non-suspension of the setter body

The generated `set_<field>` is declared `async` for API compatibility, but
its body is two plain statements — the field assignment and the synchronous
`Watch` send — with no `.await` in it (item_struct.rs: "Watch send() is
sync, but we keep the setter async for API compatibility").  We embed setter
bodies as statement lists and run them with an executor in which only an
await point can suspend. -/

/-- Statements that can occur in a generated accessor body. -/
inductive Stmt where
  | assignField
  | sendValue
  | awaitPoint
  deriving Repr, DecidableEq

/-- The body of the generated `set_<field>`: assign, then send.  Transcribed
from the `setter` quote in item_struct.rs. -/
def setterBody : List Stmt := [Stmt.assignField, Stmt.sendValue]

/-- Result of running an accessor body: ran to completion, or hit a
suspension point. -/
inductive ExecResult (T : Type) where
  | done (c : Controller T)
  | suspended
  deriving Repr, DecidableEq

/-- Run one statement of a setter body with argument `v`. -/
def execStmt {T : Type} (c : Controller T) (v : T) : Stmt → ExecResult T
  | .assignField => .done { c with state := v }
  | .sendValue => .done { c with watch := c.watch.send c.state }
  | .awaitPoint => .suspended

/-- Run a body left to right; stop at the first suspension. -/
def execBody {T : Type} (c : Controller T) (v : T) : List Stmt → ExecResult T
  | [] => .done c
  | s :: rest =>
    match execStmt c v s with
    | .done c1 => execBody c1 v rest
    | .suspended => .suspended

/-- C6: the mutate-and-publish accessor body contains no suspension point,
and executing it completes synchronously — in every controller state, hence
for any number of attached subscribers — with exactly the effect of
`set_state`. -/
theorem setter_never_suspends {T : Type} (c : Controller T) (v : T) :
    Stmt.awaitPoint ∉ setterBody ∧
    execBody c v setterBody = .done (c.set_state v) := by
  constructor
  · decide
  · simp [setterBody, execBody, execStmt, Controller.set_state]

/-- C10: attaching a subscriber is fallible: `Subscriber::new` returns
`Some` exactly while fewer than `BROADCAST_MAX_SUBSCRIBERS = 16` receivers
are attached to the field's channel; at the limit it returns `None`, and
dropping one receiver frees a slot so that attaching succeeds again. -/
theorem subscriber_new_slot_limit {T : Type} (w : Watch T) :
    ((∃ p, Subscriber.new w = some p) ↔
      w.receiver_count < BROADCAST_MAX_SUBSCRIBERS) ∧
    (w.receiver_count = BROADCAST_MAX_SUBSCRIBERS →
      Subscriber.new w = none ∧
      ∃ p, Subscriber.new w.dropReceiver = some p) := by
  constructor
  · constructor
    · rintro ⟨p, hp⟩
      by_contra h
      simp [Subscriber.new, Watch.receiver, h] at hp
    · intro h
      refine ⟨(⟨⟨0⟩, true⟩, { w with receiver_count := w.receiver_count + 1 }), ?_⟩
      simp [Subscriber.new, Watch.receiver, h]
  · intro h
    constructor
    · simp [Subscriber.new, Watch.receiver, h]
    · refine ⟨(⟨⟨0⟩, true⟩,
        { w.dropReceiver with receiver_count := w.dropReceiver.receiver_count + 1 }), ?_⟩
      have hlt : w.dropReceiver.receiver_count < BROADCAST_MAX_SUBSCRIBERS := by
        simp [Watch.dropReceiver, h, BROADCAST_MAX_SUBSCRIBERS]
      simp [Subscriber.new, Watch.receiver, hlt]

/-! Attribute parsing (`parse_controller_attrs`, item_struct.rs)

A field's `#[controller(...)]` attribute is a list of metas; each meta has a
name, an optional parenthesized list of nested identifiers (used by
`publish(...)`) and an optional `= "name"` string value (used by `getter` /
`setter`).  Recognized names are `publish`, `getter` and `setter`; inside
`publish(...)` the only recognized nested identifier is `pub_setter`.
Anything else aborts generation with an error naming the offender. -/

/-- Structure `ControllerAttrs` from item_struct.rs. -/
structure ControllerAttrs where
  publish : Bool
  pub_setter : Bool
  getter_name : Option String
  setter_name : Option String
  deriving Repr, DecidableEq

/-- Default `ControllerAttrs::default()`. -/
def ControllerAttrs.init : ControllerAttrs := ⟨false, false, none, none⟩

/-- One meta inside `#[controller(...)]`: a path name, nested parenthesized
identifiers, and an optional `= "string"` value. -/
structure MetaItem where
  name : String
  nested : List String
  value : Option String
  deriving Repr, DecidableEq

/-- The nested-marker loop of the `publish` branch: each identifier must be
`pub_setter`; otherwise fail naming the identifier. -/
def parseNestedPublish : ControllerAttrs → List String → Except String ControllerAttrs
  | attrs, [] => .ok attrs
  | attrs, n :: rest =>
    if n = "pub_setter" then
      parseNestedPublish { attrs with pub_setter := true } rest
    else
      .error ("expected `pub_setter`, found `" ++ n ++ "`")

/-- One iteration of the `parse_nested_meta` closure in
`parse_controller_attrs`: dispatch on the meta name, defaulting bare
`getter` to the field name and bare `setter` to `set_<field>`, and reject
any other name with an error naming it. -/
def parseMeta (fieldName : String) (attrs : ControllerAttrs) (m : MetaItem) :
    Except String ControllerAttrs :=
  if m.name = "publish" then
    parseNestedPublish { attrs with publish := true } m.nested
  else if m.name = "getter" then
    .ok { attrs with getter_name := some (m.value.getD fieldName) }
  else if m.name = "setter" then
    .ok { attrs with setter_name := some (m.value.getD ("set_" ++ fieldName)) }
  else
    .error ("expected `publish`, `getter`, or `setter`, found `" ++ m.name ++ "`")

/-- Fold `parseMeta` over the metas, stopping at the first error. -/
def parseMetas (fieldName : String) (attrs : ControllerAttrs) :
    List MetaItem → Except String ControllerAttrs
  | [] => .ok attrs
  | m :: rest =>
    match parseMeta fieldName attrs m with
    | .ok a => parseMetas fieldName a rest
    | .error e => .error e

/-- Function `parse_controller_attrs` (restricted to a field that carries a
`#[controller(...)]` attribute with the given metas). -/
def parse_controller_attrs (fieldName : String) (metas : List MetaItem) :
    Except String ControllerAttrs :=
  parseMetas fieldName ControllerAttrs.init metas

/-- The first unrecognized marker name mentioned by a meta, if any:
its own name when it is not `publish`/`getter`/`setter`, or the first
nested identifier other than `pub_setter` when it is `publish`. -/
def MetaItem.unrecognized (m : MetaItem) : Option String :=
  if m.name = "publish" then
    m.nested.find? (fun n => n ≠ "pub_setter")
  else if m.name = "getter" then
    none
  else if m.name = "setter" then
    none
  else
    some m.name

theorem parseNestedPublish_ok_of_none (ns : List String)
    (h : ns.find? (fun n => n ≠ "pub_setter") = none) :
    ∀ attrs, ∃ a, parseNestedPublish attrs ns = .ok a := by
  induction ns with
  | nil => intro attrs; exact ⟨attrs, rfl⟩
  | cons n rest ih =>
    intro attrs
    rw [List.find?_cons] at h
    by_cases hn : n = "pub_setter"
    · simp only [hn, decide_not] at h
      simp only [parseNestedPublish, hn, if_true]
      exact ih (by simpa using h) _
    · exfalso
      simp [hn] at h

theorem parseNestedPublish_error_names (ns : List String) (bad : String)
    (h : ns.find? (fun n => n ≠ "pub_setter") = some bad) :
    ∀ attrs, ∃ s t, parseNestedPublish attrs ns = .error (s ++ bad ++ t) := by
  induction ns with
  | nil => simp at h
  | cons n rest ih =>
    intro attrs
    rw [List.find?_cons] at h
    by_cases hn : n = "pub_setter"
    · simp only [hn, decide_not] at h
      simp only [parseNestedPublish, hn, if_true]
      exact ih (by simpa using h) _
    · have hb : n = bad := by
        simp [hn] at h
        exact h
      subst hb
      exact ⟨"expected `pub_setter`, found `", "`", by
        simp [parseNestedPublish, hn]⟩

theorem parseMeta_ok_of_recognized (fieldName : String) (m : MetaItem)
    (h : m.unrecognized = none) :
    ∀ attrs, ∃ a, parseMeta fieldName attrs m = .ok a := by
  intro attrs
  unfold MetaItem.unrecognized at h
  unfold parseMeta
  by_cases h1 : m.name = "publish"
  · simp only [h1, if_true] at h ⊢
    exact parseNestedPublish_ok_of_none m.nested h _
  · by_cases h2 : m.name = "getter"
    · simp [h1, h2]
    · by_cases h3 : m.name = "setter"
      · simp [h1, h2, h3]
      · simp [h1, h2, h3] at h

theorem parseMeta_error_names (fieldName : String) (m : MetaItem) (bad : String)
    (h : m.unrecognized = some bad) :
    ∀ attrs, ∃ s t, parseMeta fieldName attrs m = .error (s ++ bad ++ t) := by
  intro attrs
  unfold MetaItem.unrecognized at h
  unfold parseMeta
  by_cases h1 : m.name = "publish"
  · simp only [h1, if_true] at h ⊢
    exact parseNestedPublish_error_names m.nested bad h _
  · by_cases h2 : m.name = "getter"
    · simp [h1, h2] at h
    · by_cases h3 : m.name = "setter"
      · simp [h1, h2, h3] at h
      · simp only [h1, h2, h3, if_false] at h ⊢
        obtain rfl : m.name = bad := by simpa using h
        exact ⟨"expected `publish`, `getter`, or `setter`, found `", "`", rfl⟩

theorem parseMetas_error_names (fieldName : String)
    (pre : List MetaItem) (m : MetaItem) (rest : List MetaItem) (bad : String)
    (hpre : ∀ x ∈ pre, x.unrecognized = none)
    (hbad : m.unrecognized = some bad) :
    ∀ attrs, ∃ s t,
      parseMetas fieldName attrs (pre ++ m :: rest) = .error (s ++ bad ++ t) := by
  induction pre with
  | nil =>
    intro attrs
    obtain ⟨s, t, hst⟩ := parseMeta_error_names fieldName m bad hbad attrs
    exact ⟨s, t, by simp [parseMetas, hst]⟩
  | cons p pre ih =>
    intro attrs
    have hp : p.unrecognized = none := hpre p (by simp)
    obtain ⟨a, ha⟩ := parseMeta_ok_of_recognized fieldName p hp attrs
    obtain ⟨s, t, hst⟩ := ih (fun x hx => hpre x (by simp [hx])) a
    exact ⟨s, t, by simp [parseMetas, ha, hst]⟩

/-- C8: a field marker list containing a meta that mentions an unrecognized
marker name — its own name not among `publish`/`getter`/`setter`, or, for
`publish(...)`, a nested identifier other than `pub_setter` — makes
generation fail with an error message naming that marker (provided parsing
reaches it, i.e. the earlier metas are recognized). -/
theorem unknown_marker_rejected_by_name (fieldName : String)
    (pre : List MetaItem) (m : MetaItem) (rest : List MetaItem) (bad : String)
    (hpre : ∀ x ∈ pre, x.unrecognized = none)
    (hbad : m.unrecognized = some bad) :
    ∃ s t,
      parse_controller_attrs fieldName (pre ++ m :: rest) =
        .error (s ++ bad ++ t) :=
  parseMetas_error_names fieldName pre m rest bad hpre hbad ControllerAttrs.init

/-- Witness for C8: `#[controller(getter, frobnicate)]` fails naming
`frobnicate`. -/
theorem unknown_marker_rejected_by_name_witness :
    (∀ x ∈ [(⟨"getter", [], none⟩ : MetaItem)], x.unrecognized = none) ∧
    (⟨"frobnicate", [], none⟩ : MetaItem).unrecognized = some "frobnicate" ∧
    ∃ s t,
      parse_controller_attrs "mode"
          ([⟨"getter", [], none⟩] ++ (⟨"frobnicate", [], none⟩ : MetaItem) :: []) =
        .error (s ++ "frobnicate" ++ t) :=
  ⟨by decide, by decide,
    unknown_marker_rejected_by_name "mode" [⟨"getter", [], none⟩]
      ⟨"frobnicate", [], none⟩ [] "frobnicate" (by decide) (by decide)⟩

/-! Setter routing (`setter_fields_info`, item_struct.rs)

For each field with a public setter — requested via `setter` or via
`publish(pub_setter)` — the expansion records the public setter name
(explicit, or defaulting to `set_<field>`) and, when the field is also
published, the name of the publish-triggering internal mutator the public
setter must call; for an unpublished field it records `None`, meaning a
direct field write. -/

/-- A parsed field: its name and its controller attributes. -/
structure FieldDecl where
  name : String
  attrs : ControllerAttrs
  deriving Repr, DecidableEq

/-- Structure `SetterFieldInfo` from item_struct.rs. -/
structure SetterFieldInfo where
  field_name : String
  setter_name : String
  internal_setter_name : Option String
  deriving Repr, DecidableEq

/-- Filter `StructFields::with_setter`: `setter` attribute present, or
`pub_setter` inside `publish`. -/
def hasSetter (f : FieldDecl) : Bool :=
  f.attrs.setter_name.isSome || f.attrs.pub_setter

/-- Name of the generated publish-triggering mutator for a published field
(`generate_publish_code`: `set_<field>`). -/
def publishSetterName (fieldName : String) : String :=
  "set_" ++ fieldName

/-- The per-field body of the `setter_fields_info` map in `expand`. -/
def setterInfoOf (f : FieldDecl) : SetterFieldInfo where
  field_name := f.name
  setter_name := f.attrs.setter_name.getD ("set_" ++ f.name)
  internal_setter_name :=
    if f.attrs.publish then some ("set_" ++ f.name) else none

/-- Function `setter_fields_info` from `expand` (item_struct.rs). -/
def setter_fields_info (fields : List FieldDecl) : List SetterFieldInfo :=
  (fields.filter hasSetter).map setterInfoOf

/-- C5: every field with a public setter yields exactly one setter
descriptor; that descriptor routes through the publish-triggering mutator
`set_<field>` precisely when the field is published, and writes the field
directly (no internal setter) when it is not — and every setter descriptor
arises this way, so no write path to a published field bypasses the
mutator. -/
theorem setter_routes_through_publish_mutator
    (fields : List FieldDecl) (f : FieldDecl)
    (hmem : f ∈ fields) (hs : hasSetter f = true) :
    setterInfoOf f ∈ setter_fields_info fields ∧
    ((setterInfoOf f).internal_setter_name = some (publishSetterName f.name) ↔
      f.attrs.publish = true) ∧
    (f.attrs.publish = false →
      (setterInfoOf f).internal_setter_name = none) ∧
    ∀ info ∈ setter_fields_info fields,
      ∃ g ∈ fields, hasSetter g = true ∧ info = setterInfoOf g := by
  refine ⟨?_, ?_, ?_, ?_⟩
  · exact List.mem_map_of_mem _ (List.mem_filter.mpr ⟨hmem, hs⟩)
  · constructor
    · intro h
      by_contra hp
      simp only [Bool.not_eq_true] at hp
      simp [setterInfoOf, hp] at h
    · intro hp
      simp [setterInfoOf, publishSetterName, hp]
  · intro hp
    simp [setterInfoOf, hp]
  · intro info hinfo
    obtain ⟨g, hg, rfl⟩ := List.mem_map.mp hinfo
    exact ⟨g, (List.mem_filter.mp hg).1, (List.mem_filter.mp hg).2, rfl⟩

/-- Witness for C5: the integration test's `counter` field
(`#[controller(setter)]`, not published) and `state` field
(`publish` + custom setter) both route as claimed. -/
theorem setter_routes_through_publish_mutator_witness :
    ((⟨"state", ⟨true, false, some "get_current_state", some "change_state"⟩⟩ : FieldDecl) ∈
      [(⟨"state", ⟨true, false, some "get_current_state", some "change_state"⟩⟩ : FieldDecl),
       ⟨"counter", ⟨false, false, none, some "set_counter"⟩⟩]) ∧
    hasSetter ⟨"state", ⟨true, false, some "get_current_state", some "change_state"⟩⟩ = true ∧
    (setterInfoOf ⟨"state", ⟨true, false, some "get_current_state", some "change_state"⟩⟩ ∈
      setter_fields_info
        [⟨"state", ⟨true, false, some "get_current_state", some "change_state"⟩⟩,
         ⟨"counter", ⟨false, false, none, some "set_counter"⟩⟩] ∧
      ((setterInfoOf ⟨"state", ⟨true, false, some "get_current_state", some "change_state"⟩⟩).internal_setter_name =
          some (publishSetterName "state") ↔
        (⟨"state", ⟨true, false, some "get_current_state", some "change_state"⟩⟩ : FieldDecl).attrs.publish = true) ∧
      ((⟨"state", ⟨true, false, some "get_current_state", some "change_state"⟩⟩ : FieldDecl).attrs.publish = false →
        (setterInfoOf ⟨"state", ⟨true, false, some "get_current_state", some "change_state"⟩⟩).internal_setter_name = none) ∧
      ∀ info ∈ setter_fields_info
          [⟨"state", ⟨true, false, some "get_current_state", some "change_state"⟩⟩,
           ⟨"counter", ⟨false, false, none, some "set_counter"⟩⟩],
        ∃ g ∈ [(⟨"state", ⟨true, false, some "get_current_state", some "change_state"⟩⟩ : FieldDecl),
               ⟨"counter", ⟨false, false, none, some "set_counter"⟩⟩],
          hasSetter g = true ∧ info = setterInfoOf g) :=
  ⟨by decide, by decide,
    setter_routes_through_publish_mutator _ _ (by decide) (by decide)⟩

/-! Module assembly (`expand_module`, mod.rs)

`expand_module` requires a module body, partitions the items into at most
one struct, at most one impl block and passthrough items (erroring on a
second struct or impl as it is encountered), requires one of each, and then
runs a guarded name check: only when the impl block's self type is a
`syn::Type::Path` whose path is a single plain identifier
(`path.get_ident()` is `Some`) is that identifier compared with the
struct's name; a qualified path (`impl bar::Baz`), a generic path
(`impl Foo<T>`) or a non-path self type (`impl &Foo`) skips the comparison
and validation succeeds.  We model an impl block's self type as a path
given by its list of segments, or a non-path type. -/

/-- The self type of an impl block, as `expand_module` inspects it: a
`syn::Type::Path` with its path segments (`get_ident()` is `some s` exactly
when the segment list is the single `[s]`), or any non-path type. -/
inductive ImplSelfTy where
  | path (segments : List String)
  | nonPath
  deriving Repr, DecidableEq

/-- One item of the annotated module. -/
inductive ModItem where
  | structDef (name : String)
  | implBlock (selfTy : ImplSelfTy)
  | other
  deriving Repr, DecidableEq

/-- The names of the struct definitions among the items, in order. -/
def structNames : List ModItem → List String
  | [] => []
  | .structDef n :: rest => n :: structNames rest
  | .implBlock _ :: rest => structNames rest
  | .other :: rest => structNames rest

/-- The self types of the impl blocks among the items, in order. -/
def implTys : List ModItem → List ImplSelfTy
  | [] => []
  | .structDef _ :: rest => implTys rest
  | .implBlock t :: rest => t :: implTys rest
  | .other :: rest => implTys rest

/-- The partition loop of `expand_module`: walk the items, recording the
struct and the impl block, failing on a duplicate of either. -/
def partitionItems :
    List ModItem → Option String → Option ImplSelfTy →
    Except String (Option String × Option ImplSelfTy)
  | [], s, i => .ok (s, i)
  | .structDef n :: rest, s, i =>
    match s with
    | some _ => .error "Module must contain exactly one struct definition"
    | none => partitionItems rest (some n) i
  | .implBlock t :: rest, s, i =>
    match i with
    | some _ => .error "Module must contain exactly one impl block"
    | none => partitionItems rest s (some t)
  | .other :: rest, s, i => partitionItems rest s i

/-- Variant of `Option.or` in first-argument-biased form, to state the partition
invariant. -/
def optOr {α : Type} (a b : Option α) : Option α :=
  match a with
  | some x => some x
  | none => b

/-- How many values an `Option` holds. -/
def optCount {α : Type} (a : Option α) : Nat :=
  match a with
  | some _ => 1
  | none => 0

/-- Whether the guarded name check of `expand_module` (mod.rs) passes: a
single-plain-identifier self type must equal the struct's name; every other
self type skips the comparison. -/
def implNameMatches (structName : String) : ImplSelfTy → Bool
  | .path [i] => decide (i = structName)
  | .path _ => true
  | .nonPath => true

/-- The validation phase of `expand_module` (mod.rs): no body, a duplicate
struct or impl, and a missing struct or impl are terminal errors; the name
mismatch error fires only for an impl whose self type is a path that
`get_ident()` reduces to a single identifier differing from the struct's
name; on success the struct name and the impl self type are returned. -/
def expand_module_validate (content : Option (List ModItem)) :
    Except String (String × ImplSelfTy) :=
  match content with
  | none => .error "Module must have a body"
  | some items =>
    match partitionItems items none none with
    | .error e => .error e
    | .ok (s?, i?) =>
      match s? with
      | none => .error "Module must contain a struct definition for the controller"
      | some sname =>
        match i? with
        | none => .error "Module must contain an impl block for the controller"
        | some t =>
          match t with
          | ImplSelfTy.path [iname] =>
            if iname = sname then .ok (sname, t)
            else
              .error ("Impl block is for type " ++ iname ++
                " but controller struct is named " ++ sname)
          | _ => .ok (sname, t)

theorem partitionItems_ok_iff (items : List ModItem) :
    ∀ (s s' : Option String) (i i' : Option ImplSelfTy),
      partitionItems items s i = .ok (s', i') ↔
        (s' = optOr s (structNames items).head? ∧
         i' = optOr i (implTys items).head? ∧
         optCount s + (structNames items).length ≤ 1 ∧
         optCount i + (implTys items).length ≤ 1) := by
  induction items with
  | nil =>
    intro s s' i i'
    simp only [partitionItems, structNames, implTys, List.head?_nil,
      List.length_nil, Nat.add_zero]
    constructor
    · intro h
      simp only [Except.ok.injEq, Prod.mk.injEq] at h
      obtain ⟨rfl, rfl⟩ := h
      refine ⟨?_, ?_, ?_, ?_⟩
      · cases s <;> rfl
      · cases i <;> rfl
      · cases s <;> simp [optCount]
      · cases i <;> simp [optCount]
    · rintro ⟨h1, h2, _, _⟩
      have hs : s' = s := by cases s <;> simpa [optOr] using h1
      have hi : i' = i := by cases i <;> simpa [optOr] using h2
      rw [hs, hi]
  | cons item rest ih =>
    intro s s' i i'
    cases item with
    | structDef n =>
      cases s with
      | some a =>
        simp only [partitionItems, structNames, List.length_cons]
        constructor
        · intro h; exact absurd h (by simp)
        · rintro ⟨_, _, h3, _⟩
          exfalso
          simp [optCount] at h3
      | none =>
        simp only [partitionItems, structNames, List.head?_cons,
          List.length_cons]
        rw [ih (some n) s' i i']
        simp only [optOr, optCount]
        constructor
        · rintro ⟨h1, h2, h3, h4⟩
          exact ⟨h1, h2, by omega, h4⟩
        · rintro ⟨h1, h2, h3, h4⟩
          exact ⟨h1, h2, by omega, h4⟩
    | implBlock t =>
      cases i with
      | some a =>
        simp only [partitionItems, implTys, List.length_cons]
        constructor
        · intro h; exact absurd h (by simp)
        · rintro ⟨_, _, _, h4⟩
          exfalso
          simp [optCount] at h4
      | none =>
        simp only [partitionItems, implTys, List.head?_cons,
          List.length_cons]
        rw [ih s s' (some t) i']
        simp only [optOr, optCount]
        constructor
        · rintro ⟨h1, h2, h3, h4⟩
          exact ⟨h1, h2, h3, by omega⟩
        · rintro ⟨h1, h2, h3, h4⟩
          exact ⟨h1, h2, h3, by omega⟩
    | other =>
      simp only [partitionItems, structNames, implTys]
      exact ih s s' i i'

/-- C7 counterexample: the claim as frozen predicts failure whenever the
impl block's type name differs from the struct's name, but the source
guards the name comparison behind `Type::Path` with `get_ident()`: a module
with struct `Foo` and `impl bar::Baz` — exactly one struct, exactly one
impl, names that match under no reading — passes validation. -/
theorem module_assembly_name_check_guard_counterexample :
    structNames [ModItem.structDef "Foo",
        ModItem.implBlock (ImplSelfTy.path ["bar", "Baz"])] = ["Foo"] ∧
    (["bar", "Baz"] : List String) ≠ ["Foo"] ∧
    expand_module_validate (some [ModItem.structDef "Foo",
        ModItem.implBlock (ImplSelfTy.path ["bar", "Baz"])]) =
      .ok ("Foo", ImplSelfTy.path ["bar", "Baz"]) :=
  ⟨rfl, by decide, rfl⟩

/-- C7 (amended): module assembly succeeds exactly when the module has a
body with exactly one struct definition and exactly one impl block whose
self type either is not a single plain identifier (qualified path, generic
path, non-path type — then the name check is skipped) or is the single
identifier equal to the struct's name; a missing body, a zero count or a
duplicate of either item, or a single-identifier name mismatch, is a
terminal error with no output; in particular a module with exactly one
struct and one matching impl block succeeds. -/
theorem module_assembly_succeeds_iff_guarded (content : Option (List ModItem)) :
    (∃ p, expand_module_validate content = .ok p) ↔
    (∃ items n t, content = some items ∧
      structNames items = [n] ∧ implTys items = [t] ∧
      implNameMatches n t = true) := by
  cases content with
  | none =>
    simp [expand_module_validate]
  | some items =>
    constructor
    · rintro ⟨p, hp⟩
      cases hE : partitionItems items none none with
      | error e =>
        rw [expand_module_validate, hE] at hp
        exact absurd hp (by simp)
      | ok pr =>
        obtain ⟨s?, i?⟩ := pr
        rw [expand_module_validate, hE] at hp
        cases s? with
        | none => exact absurd hp (by simp)
        | some sname =>
          cases i? with
          | none => exact absurd hp (by simp)
          | some t =>
            have hinv := (partitionItems_ok_iff items none (some sname)
              none (some t)).mp hE
            obtain ⟨h1, h2, h3, h4⟩ := hinv
            simp only [optOr, optCount, Nat.zero_add] at h1 h2 h3 h4
            have hS2 : structNames items = [sname] := by
              cases hS : structNames items with
              | nil => rw [hS] at h1; exact absurd h1.symm (by simp)
              | cons a l =>
                rw [hS] at h1 h3
                simp only [List.head?_cons, Option.some.injEq] at h1
                simp only [List.length_cons] at h3
                have hl : l = [] := List.eq_nil_of_length_eq_zero (by omega)
                rw [hl, h1]
            have hI2 : implTys items = [t] := by
              cases hI : implTys items with
              | nil => rw [hI] at h2; exact absurd h2.symm (by simp)
              | cons a l =>
                rw [hI] at h2 h4
                simp only [List.head?_cons, Option.some.injEq] at h2
                simp only [List.length_cons] at h4
                have hl : l = [] := List.eq_nil_of_length_eq_zero (by omega)
                rw [hl, h2]
            refine ⟨items, sname, t, rfl, hS2, hI2, ?_⟩
            cases t with
            | nonPath => rfl
            | path segs =>
              cases segs with
              | nil => rfl
              | cons i rest =>
                cases rest with
                | nil =>
                  by_cases hn : i = sname
                  · simp [implNameMatches, hn]
                  · exact absurd hp (by simp [hn])
                | cons j rest2 => rfl
    · rintro ⟨items2, n, t, hc, hS, hI, hm⟩
      obtain rfl : items = items2 := Option.some.inj hc
      have hpart : partitionItems items none none = .ok (some n, some t) := by
        rw [partitionItems_ok_iff items none (some n) none (some t)]
        refine ⟨?_, ?_, ?_, ?_⟩
        · rw [hS]; rfl
        · rw [hI]; rfl
        · rw [hS]; simp [optCount]
        · rw [hI]; simp [optCount]
      refine ⟨(n, t), ?_⟩
      rw [expand_module_validate, hpart]
      cases t with
      | nonPath => rfl
      | path segs =>
        cases segs with
        | nil => rfl
        | cons i rest =>
          cases rest with
          | nil =>
            have hin : i = n := by simpa [implNameMatches] using hm
            simp [hin]
          | cons j rest2 => rfl

/-! Identifier naming (`generate_publish_code`, item_struct.rs)

Identifiers are modelled as ASCII byte strings (`List Nat`), matching Rust's
`to_ascii_uppercase`.  `generate_publish_code` derives, from the owning-type
name and the field name alone, the static channel identifier
`upper(snake(TypeName)) ++ "_" ++ upper(field) ++ "_WATCH"` and the
subscriber type name `TypeName ++ Pascal(field)`. -/

/-- Function `u8::to_ascii_uppercase` on one byte. -/
def asciiUpperByte (b : Nat) : Nat :=
  if 97 ≤ b ∧ b ≤ 122 then b - 32 else b

/-- Function `u8::to_ascii_lowercase` on one byte. -/
def asciiLowerByte (b : Nat) : Nat :=
  if 65 ≤ b ∧ b ≤ 90 then b + 32 else b

/-- Function `str::to_ascii_uppercase`. -/
def toAsciiUppercase (s : List Nat) : List Nat :=
  s.map asciiUpperByte

/-- Whether a byte is an ASCII uppercase letter. -/
def isUpperByte (b : Nat) : Bool :=
  decide (65 ≤ b ∧ b ≤ 90)

/-- Helper for `pascal_to_snake_case` on the bytes after the first. -/
def pascalToSnakeTail : List Nat → List Nat
  | [] => []
  | b :: rest =>
    (if isUpperByte b then [95, asciiLowerByte b] else [b]) ++
      pascalToSnakeTail rest

/-- Modelled from the spec: `pascal_to_snake_case` lives in the crate's
`util` module, which is not under src/.  The spec calls the channel
identifier the "case-normalized" owning-type name in a
`TypeName_FIELD_CHANNEL`-style scheme, so we use the standard Pascal-case to
snake-case normalization: every uppercase letter after the first byte gets
an underscore (byte 95) inserted before it, and all letters are lowercased. -/
def pascal_to_snake_case : List Nat → List Nat
  | [] => []
  | b :: rest => asciiLowerByte b :: pascalToSnakeTail rest

/-- Helper for `snake_to_pascal_case`; the flag asks for capitalizing the
next letter (set at the start and after each underscore, which is dropped). -/
def snakeToPascalGo : Bool → List Nat → List Nat
  | _, [] => []
  | cap, b :: rest =>
    if b = 95 then snakeToPascalGo true rest
    else (if cap then asciiUpperByte b else b) :: snakeToPascalGo false rest

/-- Modelled from the spec: `snake_to_pascal_case` lives in the crate's
`util` module, which is not under src/.  The spec fixes the subscriber type
name as the owning type name concatenated with the field name "in a fixed
(Pascal) casing convention": underscores are dropped and the letter opening
each segment is uppercased. -/
def snake_to_pascal_case (s : List Nat) : List Nat :=
  snakeToPascalGo true s

/-- The bytes of the literal suffix `_WATCH`. -/
def watchSuffix : List Nat := [95, 87, 65, 84, 67, 72]

/-- Identifier `watch_channel_name` from `generate_publish_code`:
`format!("{struct_name_caps}_{field_name_caps}_WATCH")` with
`struct_name_caps = pascal_to_snake_case(struct_name).to_ascii_uppercase()`
and `field_name_caps = field_name.to_ascii_uppercase()`. -/
def watch_channel_name (structName fieldName : List Nat) : List Nat :=
  toAsciiUppercase (pascal_to_snake_case structName) ++ [95] ++
    toAsciiUppercase fieldName ++ watchSuffix

/-- Identifier `subscriber_struct_name` from `generate_publish_code`:
`format!("{struct_name_str}{field_name_pascal}")`. -/
def subscriber_struct_name (structName fieldName : List Nat) : List Nat :=
  structName ++ snake_to_pascal_case fieldName

/-- A byte legal in a snake-case Rust field identifier: a lowercase ASCII
letter, an ASCII digit, or an underscore. -/
def isSnakeByte (b : Nat) : Bool :=
  decide ((97 ≤ b ∧ b ≤ 122) ∨ (48 ≤ b ∧ b ≤ 57) ∨ b = 95)

theorem asciiUpperByte_injOn (b1 b2 : Nat)
    (h1 : isSnakeByte b1 = true) (h2 : isSnakeByte b2 = true)
    (h : asciiUpperByte b1 = asciiUpperByte b2) : b1 = b2 := by
  simp only [isSnakeByte, decide_eq_true_eq] at h1 h2
  simp only [asciiUpperByte] at h
  split at h <;> split at h <;> omega

theorem toAsciiUppercase_injOn (f1 f2 : List Nat)
    (h1 : ∀ b ∈ f1, isSnakeByte b = true)
    (h2 : ∀ b ∈ f2, isSnakeByte b = true)
    (h : toAsciiUppercase f1 = toAsciiUppercase f2) : f1 = f2 := by
  induction f1 generalizing f2 with
  | nil =>
    cases f2 with
    | nil => rfl
    | cons b l => exact absurd h (by simp [toAsciiUppercase])
  | cons a l ih =>
    cases f2 with
    | nil => exact absurd h (by simp [toAsciiUppercase])
    | cons b m =>
      simp only [toAsciiUppercase, List.map_cons, List.cons.injEq] at h
      have hab : a = b :=
        asciiUpperByte_injOn a b (h1 a (by simp)) (h2 b (by simp)) h.1
      have hlm : l = m :=
        ih m (fun x hx => h1 x (List.mem_cons_of_mem a hx))
          (fun x hx => h2 x (List.mem_cons_of_mem b hx)) h.2
      rw [hab, hlm]

/-- C9: the generated identifiers are deterministic functions of the owning
type name and the field name alone: the channel identifier is the
case-normalized (snake-cased, upper-cased) owning-type name joined by an
underscore with the upper-cased field name plus the fixed channel suffix,
the subscriber type name is the owning type name concatenated with the
Pascal-cased field name, and for a fixed owning type the channel identifier
is collision-free in the field name over snake-case field identifiers. -/
theorem generated_names_deterministic_and_collision_free
    (s f1 f2 : List Nat)
    (h1 : ∀ b ∈ f1, isSnakeByte b = true)
    (h2 : ∀ b ∈ f2, isSnakeByte b = true) :
    watch_channel_name s f1 =
      toAsciiUppercase (pascal_to_snake_case s) ++ [95] ++
        toAsciiUppercase f1 ++ watchSuffix ∧
    subscriber_struct_name s f1 = s ++ snake_to_pascal_case f1 ∧
    (watch_channel_name s f1 = watch_channel_name s f2 ↔ f1 = f2) := by
  refine ⟨rfl, rfl, ?_, ?_⟩
  · intro h
    unfold watch_channel_name at h
    rw [List.append_assoc, List.append_assoc, List.append_assoc,
      List.append_assoc] at h
    have h3 := List.append_cancel_left h
    have h4 := List.append_cancel_left h3
    have h5 : toAsciiUppercase f1 = toAsciiUppercase f2 :=
      List.append_cancel_right h4
    exact toAsciiUppercase_injOn f1 f2 h1 h2 h5
  · intro h
    rw [h]

/-- Witness for C9 on the integration test's `Controller.state` field. -/
theorem generated_names_deterministic_and_collision_free_witness :
    (∀ b ∈ [115, 116, 97, 116, 101], isSnakeByte b = true) ∧
    (∀ b ∈ [109, 111, 100, 101], isSnakeByte b = true) ∧
    (watch_channel_name [67, 111, 110, 116, 114, 111, 108, 108, 101, 114]
        [115, 116, 97, 116, 101] =
      toAsciiUppercase (pascal_to_snake_case
          [67, 111, 110, 116, 114, 111, 108, 108, 101, 114]) ++ [95] ++
        toAsciiUppercase [115, 116, 97, 116, 101] ++ watchSuffix ∧
    subscriber_struct_name [67, 111, 110, 116, 114, 111, 108, 108, 101, 114]
        [115, 116, 97, 116, 101] =
      [67, 111, 110, 116, 114, 111, 108, 108, 101, 114] ++
        snake_to_pascal_case [115, 116, 97, 116, 101] ∧
    (watch_channel_name [67, 111, 110, 116, 114, 111, 108, 108, 101, 114]
        [115, 116, 97, 116, 101] =
      watch_channel_name [67, 111, 110, 116, 114, 111, 108, 108, 101, 114]
        [109, 111, 100, 101] ↔
      [115, 116, 97, 116, 101] = [109, 111, 100, 101])) :=
  ⟨by decide, by decide,
    generated_names_deterministic_and_collision_free
      [67, 111, 110, 116, 114, 111, 108, 108, 101, 114]
      [115, 116, 97, 116, 101] [109, 111, 100, 101] (by decide) (by decide)⟩

/-- Witness for C2 at a concrete input. -/
theorem construction_initial_value_first_observation_witness :
    ∃ sub : Subscriber, ∃ w1 : Watch Nat, ∃ sub1 : Subscriber,
      Subscriber.new (Controller.new (5 : Nat)).watch = some (sub, w1) ∧
      sub.poll_next w1 = (.ready 5, sub1) :=
  construction_initial_value_first_observation 5

/-- Witness for C3 at a concrete channel type. -/
theorem subscriber_before_first_write_witness :
    ∃ sub : Subscriber, ∃ w1 : Watch Nat,
      Subscriber.new (Watch.new : Watch Nat) = some (sub, w1) ∧
      ∃ sub1 : Subscriber,
        sub.poll_next w1 = (.pending, sub1) ∧
        sub1.poll_next w1 = (.pending, sub1) ∧
        (∀ v : Nat, ∃ sub2 : Subscriber,
          sub1.poll_next (w1.send v) = (.ready v, sub2) ∧
          sub2.poll_next (w1.send v) = (.pending, sub2)) ∧
        (∀ v : Nat, ∃ sub2 : Subscriber,
          sub.poll_next (w1.send v) = (.ready v, sub2)) :=
  subscriber_before_first_write

/-- Witness for C6 at a concrete input. -/
theorem setter_never_suspends_witness :
    Stmt.awaitPoint ∉ setterBody ∧
    execBody (Controller.new (0 : Nat)) 5 setterBody =
      .done ((Controller.new (0 : Nat)).set_state 5) :=
  setter_never_suspends (Controller.new 0) 5

/-- Witness for C7 at concrete modules: one struct with a matching
single-identifier impl succeeds; two structs do not. -/
theorem module_assembly_succeeds_iff_guarded_witness :
    ((∃ p, expand_module_validate
        (some [ModItem.structDef "Controller",
          ModItem.implBlock (ImplSelfTy.path ["Controller"]),
          ModItem.other]) = .ok p) ↔
      (∃ items n t,
        (some [ModItem.structDef "Controller",
          ModItem.implBlock (ImplSelfTy.path ["Controller"]),
          ModItem.other] : Option (List ModItem)) = some items ∧
        structNames items = [n] ∧ implTys items = [t] ∧
        implNameMatches n t = true)) ∧
    ¬ ∃ p, expand_module_validate
        (some [ModItem.structDef "A", ModItem.structDef "B",
          ModItem.implBlock (ImplSelfTy.path ["A"])]) = .ok p :=
  ⟨module_assembly_succeeds_iff_guarded _,
    fun h =>
      by
        have h2 := (module_assembly_succeeds_iff_guarded
          (some [ModItem.structDef "A", ModItem.structDef "B",
            ModItem.implBlock (ImplSelfTy.path ["A"])])).mp h
        obtain ⟨items, n, t, hc, hS, hI, hm⟩ := h2
        obtain rfl := Option.some.inj hc
        simp [structNames] at hS⟩

/-- Witness for C10 at a concrete full channel. -/
theorem subscriber_new_slot_limit_witness :
    (⟨none, 0, 16⟩ : Watch Nat).receiver_count = BROADCAST_MAX_SUBSCRIBERS ∧
    Subscriber.new (⟨none, 0, 16⟩ : Watch Nat) = none ∧
    ∃ p, Subscriber.new (⟨none, 0, 16⟩ : Watch Nat).dropReceiver = some p :=
  ⟨rfl, ((subscriber_new_slot_limit ⟨none, 0, 16⟩).2 rfl).1,
    ((subscriber_new_slot_limit ⟨none, 0, 16⟩).2 rfl).2⟩

end FirmwareController
